import Mathlib

/-!
Verification development for the HBase finder/reader core of this
graphite-web fork.  The two source files are
`webapp/graphite/readers.py` (MultiReader, HBaseReader, `_scan_table`)
and `webapp/graphite/finders/hbase.py` (HBaseFinder).  Python 2
semantics are embedded shallowly: machine integers are `Int` with
floor division (`Int.fdiv`, py2 `/` on ints), numeric samples are `Rat`
(source floats), nullable slot values are `Option Rat`, and code that
can raise returns `Option`/flags a `Bool`, with `none`/`true` marking a
propagated exception.
-/

/-- A slot value inside a series: `none` is python `None`. -/
abbrev Val := Option Rat

/-- `(start, end, step)` triple — python `time_info`. -/
abbrev TimeInfo := Int × Int × Int

/-- One materialized series: `(time_info, values)`. -/
abbrev Series := TimeInfo × List Val

/-- Python list indexing `l[i]`: a negative index counts from the end;
an index out of range on either side raises `IndexError` (`none`).
The inner `some x` carries the element, which may itself be python
`None`. -/
def pyGetO (l : List Val) (i : Int) : Option Val :=
  let j : Int := if i < 0 then (l.length : Int) + i else i
  if 0 ≤ j then l.get? j.toNat else none

/-- Number of iterations of python `xrange(a, b, st)`;
`none` models the `ValueError` raised on a zero step. -/
def xrangeCount (a b st : Int) : Option Nat :=
  if st = 0 then none
  else if 0 < st then some ((Int.fdiv (b - a + st - 1) st).toNat)
  else some ((Int.fdiv (a - b + (-st) - 1) (-st)).toNat)

/-- The shared slot loop of `MultiReader.merge` (readers.py 83-105) and
`HBaseReader._merge` (readers.py 393-408), iterating `n` slots from `t`
stepping by `step`.  Per slot: `i1 = (t - start1) / step1`; take
`values1[i1]` when `len(values1) > i1`, falling back to the same lookup
in the second series when the first value is `None`.  `none` models a
propagated `ZeroDivisionError`/`IndexError`. -/
def mergeSlots (s1 st1 : Int) (vs1 : List Val) (s2 st2 : Int) (vs2 : List Val)
    (step : Int) : Int → Nat → Option (List Val)
  | _, 0 => some []
  | t, Nat.succ n =>
    if st1 = 0 then none
    else
      let i1 := Int.fdiv (t - s1) st1
      let v1 : Option Val := if (vs1.length : Int) > i1 then pyGetO vs1 i1 else some none
      match v1 with
      | none => none
      | some (some x) =>
        (mergeSlots s1 st1 vs1 s2 st2 vs2 step (t + step) n).map (fun r => some x :: r)
      | some none =>
        if st2 = 0 then none
        else
          let i2 := Int.fdiv (t - s2) st2
          let v2 : Option Val := if (vs2.length : Int) > i2 then pyGetO vs2 i2 else some none
          match v2 with
          | none => none
          | some y =>
            (mergeSlots s1 st1 vs1 s2 st2 vs2 step (t + step) n).map (fun r => y :: r)

/-- `MultiReader.merge` (readers.py 67-107).  Swaps so that `results1`
has the smaller step (`if results1[0][2] > results2[0][2]`), then runs
the slot loop `while t < end: ... t += step`.  A non-positive step with
a non-empty window would loop forever (`none`); with an empty window the
loop body never runs. -/
def merge_multi (r1 r2 : Series) : Option Series :=
  let a := if r1.1.2.2 > r2.1.2.2 then r2 else r1
  let b := if r1.1.2.2 > r2.1.2.2 then r1 else r2
  let s1 := a.1.1
  let st1 := a.1.2.2
  let vs1 := a.2
  let s2 := b.1.1
  let st2 := b.1.2.2
  let vs2 := b.2
  let step := st1
  let start := min s1 s2
  let e := max a.1.2.1 b.1.2.1
  if 0 < step then
    (mergeSlots s1 st1 vs1 s2 st2 vs2 step start
        ((Int.fdiv (e - start + step - 1) step).toNat)).map
      (fun vals => ((start, e, step), vals))
  else if e ≤ start then some ((start, e, step), [])
  else none

/-- `HBaseReader._merge` (readers.py 378-409).  Identical slot loop, but
the swap condition is `if results1[0][2] < results2[0][2]`, so `results1`
ends up as the series with the LARGER step (despite the source comment
"Ensure results1 is finer"), and the loop is `for t in xrange(start, end,
step)`. -/
def merge_hbase (r1 r2 : Series) : Option Series :=
  let a := if r1.1.2.2 < r2.1.2.2 then r2 else r1
  let b := if r1.1.2.2 < r2.1.2.2 then r1 else r2
  let s1 := a.1.1
  let st1 := a.1.2.2
  let vs1 := a.2
  let s2 := b.1.1
  let st2 := b.1.2.2
  let vs2 := b.2
  let step := st1
  let start := min s1 s2
  let e := max a.1.2.1 b.1.2.1
  match xrangeCount start e step with
  | none => none
  | some n =>
    (mergeSlots s1 st1 vs1 s2 st2 vs2 step start n).map
      (fun vals => ((start, e, step), vals))

/-! ## Tier scanner (`_scan_table`, readers.py 285-334) -/

/-- Lexicographic order on characters lists (python 2 byte-string `<`). -/
def charListLt : List Char → List Char → Bool
  | [], [] => false
  | [], _ :: _ => true
  | _ :: _, [] => false
  | a :: as, b :: bs => if a = b then charListLt as bs else decide (a < b)

/-- Insert one `(column, value)` pair into a key-sorted association
list, keeping ascending key order. -/
def insertRow (x : String × Rat) : List (String × Rat) → List (String × Rat)
  | [] => [x]
  | y :: ys => if charListLt x.1.toList y.1.toList then x :: y :: ys else y :: insertRow x ys

/-- Sort a row's columns by key, ascending. -/
def sortRow : List (String × Rat) → List (String × Rat)
  | [] => []
  | x :: xs => insertRow x (sortRow xs)

/-- `[float(data[k]) for k in sorted(data.iterkeys())]` (readers.py 326):
the row's cell values in ascending column-key order.  The store already
holds the parsed numeric value of each cell. -/
def sortedVals (row : List (String × Rat)) : List Rat :=
  (sortRow row).map Prod.snd

/-- Python `a.startswith(b)` on character lists. -/
def listStarts : List Char → List Char → Bool
  | [], _ => true
  | _ :: _, [] => false
  | a :: as, b :: bs => a = b && listStarts as bs

/-- Python substring containment `needle in hay`. -/
def subOf (n : List Char) : List Char → Bool
  | [] => n.isEmpty
  | c :: rest => listStarts n (c :: rest) || subOf n rest

/-- `_avg` (readers.py 278-282).  The empty branch returns
`float('nan')` in the source; every group built by `_scan_table` is
non-empty, so it is never taken and is modelled by `0`. -/
def pyAvg (data : List Rat) : Rat :=
  if 0 < data.length then data.sum / (data.length : Rat) else 0

/-- Python `max` on a list; `max([])` raises and is unreachable here
(groups are non-empty), modelled by `0`. -/
def pyMax : List Rat → Rat
  | [] => 0
  | x :: xs => xs.foldl max x

/-- Python `min` on a list; same unreachable-empty convention. -/
def pyMin : List Rat → Rat
  | [] => 0
  | x :: xs => xs.foldl min x

/-- Python `sum` on a list. -/
def pySum (l : List Rat) : Rat := l.sum

/-- Aggregation selection of `_scan_table` (readers.py 293-301):
substring tests `'max' in t['method']`, then `'min'`, then `'sum'`,
defaulting to `_avg`. -/
def pickMethod (method : String) : List Rat → Rat :=
  if subOf "max".toList method.toList then pyMax
  else if subOf "min".toList method.toList then pyMin
  else if subOf "sum".toList method.toList then pySum
  else pyAvg

/-- The per-row slicing loop of `_scan_table` (readers.py 328-333):
`for pos in xrange(0, rowlen, step)`, taking `data[pos:pos+step]`
(`data[pos:]` for the final short group).  Structured with fuel
(`data.length` suffices, each round drops `step ≥ 1` elements). -/
def rowGroupsAux : Nat → Nat → List Rat → List (List Rat)
  | 0, _, _ => []
  | _ + 1, _, [] => []
  | fuel + 1, step, d :: ds =>
    if (d :: ds).length ≤ step then [d :: ds]
    else (d :: ds).take step :: rowGroupsAux fuel step ((d :: ds).drop step)

/-- Group a row's value list into slices of `step` raw samples.  A zero
step makes the source's `xrange` raise `ValueError`; retention steps are
positive so that case is unreachable and yields no groups here. -/
def rowGroups (step : Nat) (data : List Rat) : List (List Rat) :=
  if step = 0 then [] else rowGroupsAux data.length step data

/-- One scan descriptor: the `cur_table` dict built by
`HBaseReader._table_config` and consumed by `_scan_table`.  The dict's
`'end'` key is the field `stop` (`end` is reserved in Lean); the
thrift connection block is transport configuration and is not
modelled. -/
structure TableDesc where
  metric : String
  method : String
  name : String
  r : Int × Int
  step : Int
  start : Int
  stop : Int
deriving DecidableEq, Repr

/-- The row-range scan collaborator:
`(table name, row_start, row_stop) → rows`, each row a key plus its
columns with numeric cell values. -/
abbrev ScanStore := String → String → String → List (String × List (String × Rat))

/-- `_scan_table` (readers.py 285-334): floor the window to 7200-second
row buckets (one extra bucket because `row_stop` is exclusive), scan
`metric:bucket` keys, and append one aggregated value per `step`-sized
slice of each returned row.  `time_info` is `(t['start'], t['end'],
t['r'][0])`. -/
def scan_table (store : ScanStore) (t : TableDesc) : Series :=
  let cur_step := t.r.1
  let final_step := t.step
  let start_floor := Int.fdiv t.start 7200 * 7200
  let end_floor := Int.fdiv t.stop 7200 * 7200 + 7200
  let method := pickMethod t.method
  let step : Int :=
    if final_step < cur_step then Int.fdiv cur_step final_step
    else Int.fdiv final_step cur_step
  let start_key := t.metric ++ ":" ++ toString start_floor
  let end_key := t.metric ++ ":" ++ toString end_floor
  let time_info : TimeInfo := (t.start, t.stop, cur_step)
  let rows := store t.name start_key end_key
  let data_val := rows.foldl
    (fun acc row => acc ++ (rowGroups step.toNat (sortedVals row.2)).map method) []
  (time_info, data_val.map some)

/-! ## Tier planner (`HBaseReader._table_config`, readers.py 411-442) -/

/-- `".".join("%s_%s" % tup for tup in self.retentions)`. -/
def retenStr (retentions : List (Int × Int)) : String :=
  String.intercalate "." (retentions.map (fun r => toString r.1 ++ "_" ++ toString r.2))

/-- The tier walk of `_table_config` (readers.py 417-438): accumulate
the coverage offset; `break` when `cur_end < startTime`, `continue` when
`cur_start > endTime`, otherwise emit a descriptor whose `start` is
clamped to `startTime` and whose `end` is the raw `cur_end`.  Also
threads `final_step` (updated per included tier by `if r[0] <
final_step`); `step := 0` is a placeholder overwritten after the walk,
as the source fills `'step'` in a second loop. -/
def tcLoop (metric method rstr : String) (startTime endTime now : Int) :
    List (Int × Int) → Int → Int → List TableDesc × Int
  | [], _, fs => ([], fs)
  | r :: rest, offset, fs =>
    let r_secs := r.1 * r.2
    let cur_end := now - offset
    let offset2 := offset + r_secs
    let cur_start := now - offset2
    if cur_end < startTime then ([], fs)
    else if cur_start > endTime then
      tcLoop metric method rstr startTime endTime now rest offset2 fs
    else
      let fs2 := if r.1 < fs then r.1 else fs
      let d : TableDesc :=
        { metric := metric, method := method,
          name := toString r.1 ++ "." ++ rstr,
          r := r, step := 0,
          start := if cur_start < startTime then startTime else cur_start,
          stop := cur_end }
      let res := tcLoop metric method rstr startTime endTime now rest offset2 fs2
      (d :: res.1, res.2)

/-- `HBaseReader._table_config` (readers.py 411-442).  `final_step`
starts from `self.retentions[-1][0]` (an empty retention list would
raise `IndexError`; callers always pass a parsed non-empty spec,
modelled with `getLastD`). -/
def table_config (retentions : List (Int × Int)) (metric method : String)
    (startTime endTime now : Int) : List TableDesc :=
  let res := tcLoop metric method (retenStr retentions) startTime endTime now
    retentions 0 ((retentions.getLastD (0, 0)).1)
  res.1.map (fun d => { d with step := res.2 })

/-- The `(tier, cur_start, cur_end)` coverage walk by itself: tier `r`
at cumulative offset `o` covers `[now - o - r.1*r.2, now - o)`. -/
def tierWalk : List (Int × Int) → Int → Int → List ((Int × Int) × Int × Int)
  | [], _, _ => []
  | r :: rest, offset, now =>
    let cur_end := now - offset
    let offset2 := offset + r.1 * r.2
    ((r, now - offset2, cur_end)) :: tierWalk rest offset2 now

/-- Projection of a plan to `(tier, scan start, scan end)` — the parts
claim C4 speaks about. -/
def tcProj (l : List TableDesc) : List ((Int × Int) × Int × Int) :=
  l.map (fun d => (d.r, d.start, d.stop))

/-- Follows the claim text of C4: a tier is planned iff its coverage
interval `[cur_start, cur_end)` intersects `[startTime, endTime)`, and
the per-tier window is the intersection, clamped at BOTH ends. -/
def table_config_claim (retentions : List (Int × Int))
    (startTime endTime now : Int) : List ((Int × Int) × Int × Int) :=
  (tierWalk retentions 0 now).filterMap (fun x =>
    if max x.2.1 startTime < min x.2.2 endTime then
      some (x.1, max x.2.1 startTime, min x.2.2 endTime)
    else none)

/-- What the source actually plans: a tier is kept iff `startTime ≤
cur_end` and `cur_start ≤ endTime` (touching boundaries count), the
start is clamped to `startTime`, and the end is the raw `cur_end`. -/
def table_config_actual (retentions : List (Int × Int))
    (startTime endTime now : Int) : List ((Int × Int) × Int × Int) :=
  (tierWalk retentions 0 now).filterMap (fun x =>
    if startTime ≤ x.2.2 ∧ x.2.1 ≤ endTime then
      some (x.1, if x.2.1 < startTime then startTime else x.2.1, x.2.2)
    else none)

/-! ## `HBaseReader.fetch` (readers.py 351-376) -/

/-- The exceptions `HBaseReader.fetch` can raise, distinguished because
they mark DIFFERENT failure points of the function. -/
inductive PyExc where
  /-- `TypeError: not all arguments converted during string formatting`:
  both guard branches evaluate a malformed `%` expression while building
  the `log.exception` argument (readers.py 353-354 applies one `%s` to a
  2-tuple, 357-358 applies zero specifiers to `startTime`), so the guard
  raises before its bare `return`. -/
  | typeError
  /-- `NameError: name 'Pool' is not defined` (readers.py 368): `Pool`
  is never imported or defined in the module. -/
  | nameError
  /-- An exception propagated out of `self._merge`
  (`ZeroDivisionError`/`IndexError`, not distinguished). -/
  | mergeError
deriving DecidableEq

/-- The dynamic type of a `fetch` return value: python `None` (the bare
`return` of the guard branches — dead code as shipped, since the log
call raises first), a bare `(time_info, values)` pair (the `reduce`
branch), the raw result list (the `len(results) <= 1` branch), or a
raised exception. -/
inductive FetchOut where
  | pyNone
  | series (s : Series)
  | seriesList (l : List Series)
  | raised (e : PyExc)
deriving DecidableEq

/-- `reduce(self._merge, results)` — left fold; `none` when a merge
step raises. -/
def foldMergeH : Series → List Series → Option Series
  | acc, [] => some acc
  | acc, s :: rest =>
    match merge_hbase acc s with
    | none => none
    | some m => foldMergeH m rest

/-- The return logic at readers.py 369-376 as written: given the
results list that `threads.map(_scan_table, table_config)` would
produce, return `reduce(self._merge, results)` — a bare pair — when
more than one result, and the raw `results` LIST otherwise.  In the
module as shipped this code is unreachable (`fetch` raises `NameError`
at line 368 first); it is modelled separately so the shape of each
`return` can still be stated. -/
def fetch_return_shape (results : List Series) : FetchOut :=
  match results with
  | r :: s :: rs =>
    match foldMergeH r (s :: rs) with
    | some m => FetchOut.series m
    | none => FetchOut.raised PyExc.mergeError
  | other => FetchOut.seriesList other

/-- `HBaseReader.fetch` (readers.py 351-376) as shipped.  Each guard
branch raises `TypeError` while formatting its `log.exception`
argument, before the bare `return` (see `PyExc.typeError`).  A request
passing both guards pulls `endTime` back to `now` and computes
`self._table_config(...)` (pure, no store access), then raises
`NameError` at `Pool(len(table_config))`: `Pool` is never imported, so
`threads.map(_scan_table, ...)` never runs and the returns at lines
374/376 are unreachable.  The second component records the descriptors
handed to `_scan_table` — always `[]`: no scan is ever issued.
`endTime` is an `Int` here (the `endTime is None` case of line 360 is
not modelled). -/
def fetch (_store : ScanStore) (metric method : String)
    (retentions : List (Int × Int)) (startTime endTime now : Int) :
    FetchOut × List TableDesc :=
  if startTime > endTime then (FetchOut.raised PyExc.typeError, [])
  else if startTime > now then (FetchOut.raised PyExc.typeError, [])
  else
    let endT := if endTime > now then now else endTime
    let _tconf := table_config retentions metric method startTime endT now
    (FetchOut.raised PyExc.nameError, [])

/-! ## `MultiReader.fetch` (readers.py 48-65) -/

/-- Behaviour of one `n.fetch(startTime, endTime)` call at line 50: a
`(time_info, values)` pair, python `None`, a synchronously raised
exception (line 50 has no try/except, so e.g. a `whisper.fetch` error
propagates), or a `FetchInProgress` whose `waitForResults` either
yields a pair or raises (caught at lines 55-59 and replaced by
`None`). -/
inductive SubFetch where
  | val (s : Series)
  | noneRes
  | raisesSync
  | pending (r : Option Series)
deriving DecidableEq

/-- The wait/normalisation phase (readers.py 53-59): pending handles
are resolved, a failed wait becomes `None`; other results pass through
unchanged.  `raisesSync` never reaches this phase. -/
def waitPhase : SubFetch → Option Series
  | SubFetch.val s => some s
  | SubFetch.noneRes => none
  | SubFetch.raisesSync => none
  | SubFetch.pending r => r

/-- `reduce(self.merge, results)` of `MultiReader.fetch`; `none` when a
merge step raises. -/
def foldMergeM : Series → List Series → Option Series
  | acc, [] => some acc
  | acc, s :: rest =>
    match merge_multi acc s with
    | none => none
    | some m => foldMergeM m rest

/-- `MultiReader.fetch` (readers.py 48-65): start every sub-fetch (a
synchronous raise propagates out of the list comprehension), resolve
pending handles, drop `None` results, raise `"All sub-fetches failed"`
if none remain, else fold with `merge`.  `none` models any raised
exception (python never returns `None` here). -/
def multi_fetch (subs : List SubFetch) : Option Series :=
  if subs.any (fun s => match s with | SubFetch.raisesSync => true | _ => false) then none
  else
    match subs.filterMap waitPhase with
    | [] => none
    | r :: rs => foldMergeM r rs

/-- Follows the claim text of C6: a sub-fetch "fails or produces no
result" when it raises (synchronously or from its wait) or returns
`None`; it succeeds when it delivers a series. -/
def subFetchFails : SubFetch → Bool
  | SubFetch.val _ => false
  | SubFetch.noneRes => true
  | SubFetch.raisesSync => true
  | SubFetch.pending Option.none => true
  | SubFetch.pending (Option.some _) => false

/-! ## The finder (`finders/hbase.py`) -/

/-- Split a character list at every occurrence of `sep`
(python `str.split`, keeping empty pieces). -/
def splitCharAux (sep : Char) (cur : List Char) : List Char → List (List Char)
  | [] => [cur.reverse]
  | c :: rest =>
    if c = sep then cur.reverse :: splitCharAux sep [] rest
    else splitCharAux sep (c :: cur) rest

/-- `query.pattern.split(".")` (hbase.py 40). -/
def splitDots (s : String) : List String :=
  (splitCharAux '.' [] s.toList).map String.mk

/-- Split a list at the first occurrence of `c`:
`some (before, after)` or `none` when `c` does not occur. -/
def findCharSplit (c : Char) : List Char → Option (List Char × List Char)
  | [] => none
  | x :: rest =>
    if x = c then some ([], rest)
    else (findCharSplit c rest).map (fun pr => (x :: pr.1, pr.2))

/-- Modelled from the spec: the anchored single-segment shell-glob
matcher behind `match_entries` (`graphite.finders.__init__` is not part
of the sources): `*` matches any run, `?` exactly one character, and
`[...]` a character from the class (an unclosed `[` is literal).
Fuel-structured; `|pattern| + |name| + 1` steps always suffice since
every recursive call shrinks that sum. -/
def fnGlobFuel : Nat → List Char → List Char → Bool
  | 0, _, _ => false
  | fuel + 1, p, n =>
    match p, n with
    | [], [] => true
    | [], _ :: _ => false
    | '*' :: ps, [] => fnGlobFuel fuel ps []
    | '*' :: ps, c :: ns => fnGlobFuel fuel ps (c :: ns) || fnGlobFuel fuel ('*' :: ps) ns
    | '?' :: ps, _ :: ns => fnGlobFuel fuel ps ns
    | '[' :: ps, c :: ns =>
      match findCharSplit ']' ps with
      | some pr => pr.1.contains c && fnGlobFuel fuel pr.2 ns
      | none => decide ('[' = c) && fnGlobFuel fuel ps ns
    | x :: ps, c :: ns => decide (x = c) && fnGlobFuel fuel ps ns
    | _ :: _, [] => false

/-- Modelled from the spec: anchored whole-name glob match. -/
def fnGlob (p n : List Char) : Bool :=
  fnGlobFuel (p.length + n.length + 1) p n

/-- Modelled from the spec: `{a,b,c}` alternation — expand the first
top-level brace pair into one pattern variant per comma-separated
alternative; a pattern without a balanced brace pair is used as is. -/
def braceVariants (pattern : String) : List String :=
  match findCharSplit '\x7b' pattern.toList with
  | none => [pattern]
  | some pr =>
    match findCharSplit '\x7d' pr.2 with
    | none => [pattern]
    | some body =>
      (splitCharAux ',' [] body.1).map (fun alt => String.mk (pr.1 ++ alt ++ body.2))

/-- Modelled from the spec: `match_entries(entries, pattern)` — the
subset of candidate names matching the glob segment (case-sensitive,
anchored, `{...}` alternation), input order preserved (the spec leaves
the order unspecified but deterministic). -/
def match_entries (entries : List String) (pattern : String) : List String :=
  entries.filter (fun e => (braceVariants pattern).any (fun v => fnGlob v.toList e.toList))

/-- A tree row: column name → byte-string value (hbase.py rows). -/
abbrev Row := List (String × String)

/-- The tree-row store: `some row` is what `table.row(key)` returns (an
absent row is the empty dict), `none` marks a raised backend error,
which `_get_row` (hbase.py 143-148) turns into python `None`. -/
abbrev TreeStore := String → Option Row

/-- `META_CF_NAME = "t:"` (hbase.py 10). -/
def META_CF_NAME : String := "t:"

/-- `COLUMN_NAME = "%s:NODE" % META_CF_NAME` (hbase.py 11). -/
def COLUMN_NAME : String := META_CF_NAME ++ ":NODE"

/-- `RETEN_NAME = "%s:AGG" % META_CF_NAME` (hbase.py 12). -/
def RETEN_NAME : String := META_CF_NAME ++ ":AGG"

/-- `METHOD_NAME = "%s:AGG_METHOD" % META_CF_NAME` (hbase.py 13). -/
def METHOD_NAME : String := META_CF_NAME ++ ":AGG_METHOD"

/-- The child-column marker `"%s:c_" % META_CF_NAME` (hbase.py 83). -/
def CHILD_COL : String := META_CF_NAME ++ ":c_"

/-- `k.startswith(pre)` plus `k[len(pre):]` in one step. -/
def stripPre (pre s : String) : Option String :=
  if listStarts pre.toList s.toList then some (String.mk (s.toList.drop pre.toList.length))
  else none

/-- The glob-special characters `_cheaper_patterns` excludes
(hbase.py 128). -/
def excludedChars : List Char := ['*', '[', ']', '\x7b', '\x7d', '?']

/-- `any(x in chunk for x in excluded)`: the segment contains a
glob-special character. -/
def hasGlobSeg (s : String) : Bool :=
  s.toList.any (fun c => excludedChars.contains c)

/-- The `while` loop of `_cheaper_patterns` (hbase.py 132-138) acting
on `current_string` and the already-truncated list (the state after
`del pattern[0]`): as long as the head chunk is glob-free it is folded
into `current_string` and deleted; an empty remainder breaks via
`IndexError`.  Returns `(current_string, final list state)`. -/
def cheaperLoop (current : String) : List String → String × List String
  | [] => (current, [])
  | chunk :: rest =>
    if hasGlobSeg chunk then (current, chunk :: rest)
    else
      match rest with
      | [] => (current ++ "." ++ chunk, [])
      | _ :: _ => cheaperLoop (current ++ "." ++ chunk) rest

/-- `HBaseFinder._cheaper_patterns` (hbase.py 125-141).  The function
mutates its argument with `del pattern[0]`; the result pair is
`(returned list, final state of the caller's list)`.  Fewer than two
segments are returned untouched. -/
def cheaper_patterns : List String → List String × List String
  | [] => ([], [])
  | [p] => ([p], [p])
  | p0 :: p1 :: rest =>
    let res := cheaperLoop p0 (p1 :: rest)
    (res.1 :: res.2, res.2)

/-- Join segments onto `a` with `"."` separators
(`current_string += ".%s" % chunk`). -/
def joinDots (a : String) (l : List String) : String :=
  l.foldl (fun acc s => acc ++ "." ++ s) a

/-- Follows the claim text of C8: join the maximal LEADING run of
glob-free segments into one combined segment; the remaining segments,
starting at and including the first glob-special one, pass through
unchanged (so a list whose first segment is glob-special is unchanged);
fewer than two segments are returned unchanged. -/
def cheaper_patterns_claim (pattern : List String) : List String :=
  if pattern.length < 2 then pattern
  else
    match pattern.takeWhile (fun s => !hasGlobSeg s) with
    | [] => pattern
    | l0 :: lrest =>
      joinDots l0 lrest :: pattern.dropWhile (fun s => !hasGlobSeg s)

/-- The child loop of `_find_paths` when pattern segments remain
(hbase.py 93-108): look up each matched child's row key, fetch its row,
skip falsy rows (`None` from a raised `_get_row`, or an empty dict),
skip leaves (rows carrying `COLUMN_NAME`), and otherwise re-yield
everything the recursive call produces.  `recurse` is `_find_paths`
applied to the remaining pattern; the `Bool` marks a propagated
exception, which stops the loop. -/
def processChildren (store : TreeStore) (subnodes : Row)
    (recurse : String → List (String × Row) × Bool) :
    List String → List (String × Row) × Bool
  | [] => ([], false)
  | name :: rest =>
    match subnodes.lookup name with
    | none => ([], true)
    | some rowKey =>
      match store rowKey with
      | none => processChildren store subnodes recurse rest
      | some contents =>
        if contents.isEmpty then processChildren store subnodes recurse rest
        else if contents.any (fun kv => kv.1 = COLUMN_NAME) then
          processChildren store subnodes recurse rest
        else
          let res := recurse rowKey
          if res.2 then (res.1, true)
          else
            let more := processChildren store subnodes recurse rest
            (res.1 ++ more.1, more.2)

/-- `HBaseFinder._find_paths` (hbase.py 61-111) as the sequence of
`yield`s plus a flag marking an exception raised to the consumer.
A `None` row yields the `("", {})` sentinel and then raises
`AttributeError` on `nodeRow.get` (line 70) — there is no `return`
after the sentinel `yield`.  An empty row yields the sentinel and
continues harmlessly.  A row carrying a truthy `COLUMN_NAME` is
yielded with its three leaf columns (a missing `RETEN_NAME` /
`METHOD_NAME` would be a `KeyError`).  The child loop recurses only
while pattern segments remain; at the last segment each matched child
NAME is yielded together with the child name→row-key dict (not the
child's row).  Fuel-structured: every recursive call shortens the
pattern list, so `|patterns| + 1` fuel always suffices and the
exhaustion branch is unreachable. -/
def find_paths_fuel (store : TreeStore) : Nat → List String → String →
    List (String × Row) × Bool
  | 0, _, _ => ([], true)
  | fuel + 1, patterns, currKey =>
    match store currKey with
    | none => ([("", [])], true)
    | some nodeRow =>
      let sent : List (String × Row) := if nodeRow.isEmpty then [("", [])] else []
      let leafStep : Option (List (String × Row)) :=
        match nodeRow.lookup COLUMN_NAME with
        | none => some []
        | some v =>
          if v = "" then some []
          else
            match nodeRow.lookup RETEN_NAME, nodeRow.lookup METHOD_NAME with
            | some rv, some mv =>
              some [(currKey, [(COLUMN_NAME, v), (RETEN_NAME, rv), (METHOD_NAME, mv)])]
            | _, _ => none
      match leafStep with
      | none => (sent, true)
      | some leafItems =>
        let pat := match patterns with | [] => "*" | p :: _ => p
        let ts := match patterns with | [] => [] | _ :: ps => ps
        let subnodes : Row := nodeRow.filterMap
          (fun kv => (stripPre CHILD_COL kv.1).map (fun k => (k, kv.2)))
        let matching := match_entries (subnodes.map Prod.fst) pat
        if ts.isEmpty then
          (sent ++ leafItems ++ matching.map (fun nm => (nm, subnodes)), false)
        else
          let res := processChildren store subnodes (find_paths_fuel store fuel ts) matching
          (sent ++ leafItems ++ res.1, res.2)

/-- `_find_paths` with its adequate fuel. -/
def find_paths (store : TreeStore) (patterns : List String) (currKey : String) :
    List (String × Row) × Bool :=
  find_paths_fuel store (patterns.length + 1) patterns currKey

/-- A node produced by `find_nodes`: `BranchNode(subnode)` or
`LeafNode(subnode, HBaseReader(...))`.  The leaf carries the raw
retention payload handed to `json.loads` and the aggregation method
string; the reader construction itself adds nothing the claims
inspect. -/
inductive PNode where
  | branch (path : String)
  | leaf (path : String) (retenRaw : String) (aggMethod : String)
deriving DecidableEq

/-- The classification loop of `find_nodes` (hbase.py 51-59): a yielded
bundle is a leaf exactly when `bool(subnodes.get(COLUMN_NAME, False))`
— looked up in the yielded dict itself, never in a freshly fetched row.
A truthy marker with a missing `RETEN_NAME`/`METHOD_NAME` is a
`KeyError` (flag, stop). -/
def classifyNodes : List (String × Row) → List PNode × Bool
  | [] => ([], false)
  | (name, d) :: rest =>
    let truthy : Bool := match d.lookup COLUMN_NAME with
      | some v => v != ""
      | none => false
    if truthy then
      match d.lookup RETEN_NAME, d.lookup METHOD_NAME with
      | some rv, some mv =>
        let res := classifyNodes rest
        (PNode.leaf name rv mv :: res.1, res.2)
      | _, _ => ([], true)
    else
      let res := classifyNodes rest
      (PNode.branch name :: res.1, res.2)

/-- `HBaseFinder.find_nodes` (hbase.py 32-59): compress the dotted
pattern, pick the start row (`"ROOT"` when the first compressed segment
is `*` or `ROOT`), run `_find_paths` on the remaining segments and
classify every yield.  The `Bool` marks an exception reaching the
caller, from the generator or from classification. -/
def find_nodes (store : TreeStore) (patternStr : String) : List PNode × Bool :=
  match (cheaper_patterns (splitDots patternStr)).1 with
  | [] => ([], true)
  | p0 :: rest =>
    let start_string := if p0 = "*" ∨ p0 = "ROOT" then "ROOT" else p0
    let fp := find_paths store rest start_string
    let cl := classifyNodes fp.1
    (cl.1, cl.2 || fp.2)

/-- Concrete tree for claim C1 (the spec's example): `Platform` has the
children `MySQL` (a branch whose `qps` child is a leaf) and `Redis` (a
branch with no children, an empty row); every other key is an absent
(empty) row. -/
def storeC1 : TreeStore := fun k =>
  if k = "Platform" then
    some [(CHILD_COL ++ "MySQL", "k_mysql"), (CHILD_COL ++ "Redis", "k_redis")]
  else if k = "k_mysql" then some [(CHILD_COL ++ "qps", "k_qps")]
  else if k = "k_redis" then some []
  else if k = "k_qps" then
    some [(COLUMN_NAME, "info"), (RETEN_NAME, "[[60, 1440]]"), (METHOD_NAME, "avg")]
  else some []

/-- Store for claim C9: fetching row `"dead"` raises a backend error
(`_get_row` returns `None`); every other row is absent (empty). -/
def storeC9 : TreeStore := fun k =>
  if k = "dead" then none else some []

/-- Claim C2: both pairwise merges are claimed to output the finer
(smaller) step and prefer the finer series' values.  Evaluating both at
the same concrete pair: `MultiReader.merge` does (step 60 wins), but
`HBaseReader._merge` outputs the coarser step 120 and the coarser
series' values — its `<` swap makes the coarser series `results1`. -/
theorem merge_implementations_at_failing_input :
    merge_hbase ((0, 240, 60), [some 1, some 2, some 3, some 4])
        ((0, 240, 120), [some 10, some 20])
      = some ((0, 240, 120), [some 10, some 20]) ∧
    merge_multi ((0, 240, 60), [some 1, some 2, some 3, some 4])
        ((0, 240, 120), [some 10, some 20])
      = some ((0, 240, 60), [some 1, some 2, some 3, some 4]) := by
  constructor
  · decide
  · decide

/-- Claim C1: the resolver's final-depth yields are claimed to be
classified by fetching the candidate child's row and checking the leaf
marker, so that `"Platform.*.qps"` over `storeC1` yields one
`LeafNode("Platform.MySQL.qps")`.  The code instead looks the marker up
in the yielded child name→row-key dict — which never carries it — and
yields `BranchNode("qps")` (the bare segment, not the full path). -/
theorem find_nodes_final_depth_misclassified :
    find_nodes storeC1 "Platform.*.qps" = ([PNode.branch "qps"], false) := by
  decide

/-- Claim C9: `_find_paths` on a row whose store access raised (so
`_get_row` returned `None`) yields the sentinel and then raises
`AttributeError` to its consumer (flag `true`); a merely absent/empty
row yields the sentinel without raising. -/
theorem find_paths_error_row_raises :
    find_paths storeC9 [] "dead" = ([("", [])], true) ∧
    find_paths storeC9 [] "gone" = ([("", [])], false) := by
  constructor
  · decide
  · decide

/-- Claim C3: with exactly one planned tier, `fetch` is claimed to
return the tier's raw `(time_info, values)` pair unmodified.  On this
single-tier request `fetch` in fact raises `NameError` at the
unimported `Pool` before any scan and returns nothing at all; and the
return logic at lines 369-376 — were it ever reached — hands back
`results`, the one-element LIST holding the pair of that plan's only
scan, not the bare pair the `reduce` branch returns. -/
theorem fetch_single_tier_wraps_result :
    fetch (fun _ _ _ => []) "m" "avg" [(60, 1440)] 950000 999999 1000000
      = (FetchOut.raised PyExc.nameError, []) ∧
    (table_config [(60, 1440)] "m" "avg" 950000 999999 1000000).map
        (scan_table (fun _ _ _ => []))
      = [((950000, 1000000, 60), [])] ∧
    fetch_return_shape [((950000, 1000000, 60), [])]
      = FetchOut.seriesList [((950000, 1000000, 60), [])] ∧
    FetchOut.seriesList [((950000, 1000000, 60), ([] : List Val))]
      ≠ FetchOut.series ((950000, 1000000, 60), []) := by
  refine ⟨by decide, by decide, by decide, by decide⟩

/-- Claim C7: every materialized series is claimed to satisfy
`len(values) = (end - start) / step`.  A tier scan over the window
`[0, 7200)` at step 60 whose row scan returns nothing produces 0
values, while the header demands `(7200 - 0) / 60 = 120` slots —
`_scan_table` never aligns or null-fills its output. -/
theorem scan_table_length_invariant_fails :
    scan_table (fun _ _ _ => [])
        { metric := "m", method := "avg", name := "60.60_1440", r := (60, 1440),
          step := 60, start := 0, stop := 7200 }
      = ((0, 7200, 60), []) ∧
    Int.fdiv (7200 - 0) 60 = 120 ∧ ((0 : Int) ≠ 120) := by
  refine ⟨by decide, by decide, by decide⟩

/-- Claim C8 counterexample: on `["*", "b", "c"]` the leading glob-free
run is empty, so the claim says the input passes through unchanged;
`_cheaper_patterns` nevertheless joins the glob-special first segment
with the following literals into `"*.b.c"` (its loop never inspects
`pattern[0]`). -/
theorem cheaper_patterns_claim_counterexample :
    (cheaper_patterns ["*", "b", "c"]).1 = ["*.b.c"] ∧
    cheaper_patterns_claim ["*", "b", "c"] = ["*", "b", "c"] ∧
    (cheaper_patterns ["*", "b", "c"]).1 ≠ cheaper_patterns_claim ["*", "b", "c"] := by
  refine ⟨by decide, by decide, by decide⟩

/-- Claim C6 counterexample: with one reader raising synchronously and
one returning a series, `MultiReader.fetch` raises (the line-50 list
comprehension has no try/except), so "fails iff every sub-fetch fails"
is false at this input. -/
theorem multi_fetch_claim_counterexample :
    ¬ (multi_fetch [SubFetch.raisesSync, SubFetch.val ((0, 60, 60), [some 1])] = none
       ↔ ∀ s ∈ [SubFetch.raisesSync, SubFetch.val ((0, 60, 60), [some 1])],
           subFetchFails s = true) := by
  decide

/-- Claim C4 counterexample.  First input: one tier covering
`[913600, 1000000)` against the request `[900000, 950000)` — the
planned window's end is the raw `cur_end` 1000000, not the clamped
950000 the claim demands.  Second input: a request exactly touching the
fine tier's lower edge — the coarse tier's interval
`[-1678400, 913600)` does not intersect `[913600, 1000000)`, yet it is
planned (with an empty window) instead of skipped. -/
theorem table_config_claim_counterexample :
    tcProj (table_config [(60, 1440)] "m" "avg" 900000 950000 1000000)
      = [((60, 1440), 913600, 1000000)] ∧
    table_config_claim [(60, 1440)] 900000 950000 1000000
      = [((60, 1440), 913600, 950000)] ∧
    tcProj (table_config [(60, 1440)] "m" "avg" 900000 950000 1000000)
      ≠ table_config_claim [(60, 1440)] 900000 950000 1000000 ∧
    tcProj (table_config [(60, 1440), (3600, 720)] "m" "avg" 913600 1000000 1000000)
      = [((60, 1440), 913600, 1000000), ((3600, 720), 913600, 913600)] ∧
    table_config_claim [(60, 1440), (3600, 720)] 913600 1000000 1000000
      = [((60, 1440), 913600, 1000000)] := by
  refine ⟨by decide, by decide, by decide, by decide, by decide⟩

/-- Claim C5: every invalid request (`startTime > endTime` or
`startTime > now`) stops at the guard — no plan is built, no descriptor
reaches `_scan_table`, no partial work happens — but what reaches the
caller is NOT the intended logged rejection and `None` return: the
guard's malformed `%` expression raises `TypeError` while formatting
the `log.exception` argument, before the bare `return`.  The
`typeError` payload (vs the valid path's `nameError`) shows the guard,
not the `Pool` line, is where these inputs stop. -/
theorem fetch_invalid_raises_before_scan (store : ScanStore) (metric method : String)
    (retentions : List (Int × Int)) (startTime endTime now : Int)
    (h : startTime > endTime ∨ startTime > now) :
    fetch store metric method retentions startTime endTime now
      = (FetchOut.raised PyExc.typeError, []) := by
  unfold fetch
  rcases h with h | h
  · rw [if_pos h]
  · by_cases h1 : startTime > endTime
    · rw [if_pos h1]
    · rw [if_neg h1, if_pos h]

/-- Witness for `fetch_invalid_raises_before_scan` at `start 10 > end 5`. -/
theorem fetch_invalid_raises_before_scan_witness :
    fetch (fun _ _ _ => []) "m" "avg" [(60, 1440)] 10 5 100
      = (FetchOut.raised PyExc.typeError, []) :=
  fetch_invalid_raises_before_scan (fun _ _ _ => []) "m" "avg" [(60, 1440)] 10 5 100
    (Or.inl (by decide))

/-- The compression loop in closed form: it folds the maximal glob-free
run of the (already truncated) list into `current` and leaves the rest
as the list's final state. -/
theorem cheaperLoop_eq (c : String) (l : List String) :
    cheaperLoop c l
      = (joinDots c (l.takeWhile (fun s => !hasGlobSeg s)),
         l.dropWhile (fun s => !hasGlobSeg s)) := by
  induction l generalizing c with
  | nil => rfl
  | cons chunk rest ih =>
    by_cases hg : hasGlobSeg chunk
    · simp [cheaperLoop, hg, List.takeWhile_cons, List.dropWhile_cons, joinDots]
    · cases rest with
      | nil =>
        simp [cheaperLoop, hg, List.takeWhile_cons, List.dropWhile_cons, joinDots]
      | cons x xs =>
        have hstep : cheaperLoop c (chunk :: x :: xs)
            = cheaperLoop (c ++ "." ++ chunk) (x :: xs) := by
          rw [cheaperLoop]
          simp [hg]
        rw [hstep, ih]
        simp [joinDots, List.takeWhile_cons, List.dropWhile_cons, hg]

/-- Claim C8 amended: `_cheaper_patterns` joins the FIRST segment —
whatever characters it contains — with the maximal run of glob-free
segments starting at the SECOND segment, and passes the rest through
unchanged; fewer than two segments are returned unchanged.  (The
claim's "maximal leading run" reading fails only when the first segment
itself is glob-special, cf. the counterexample.) -/
theorem cheaper_patterns_amended (p : List String) :
    (p.length < 2 → cheaper_patterns p = (p, p)) ∧
    (∀ a b rest, p = a :: b :: rest →
      (cheaper_patterns p).1
        = joinDots a ((b :: rest).takeWhile (fun s => !hasGlobSeg s))
            :: (b :: rest).dropWhile (fun s => !hasGlobSeg s)) := by
  constructor
  · intro h
    match p with
    | [] => rfl
    | [x] => rfl
    | a :: b :: rest => simp [List.length_cons] at h; omega
  · intro a b rest hp
    subst hp
    have h := cheaperLoop_eq a (b :: rest)
    simp [cheaper_patterns, h]

/-- Witness for `cheaper_patterns_amended`: a one-segment input is
untouched, and `["a", "b", "*"]` compresses to `["a.b", "*"]`. -/
theorem cheaper_patterns_amended_witness :
    cheaper_patterns ["x"] = (["x"], ["x"]) ∧
    (cheaper_patterns ["a", "b", "*"]).1 = ["a.b", "*"] := by
  constructor
  · exact (cheaper_patterns_amended ["x"]).1 (by decide)
  · have h := (cheaper_patterns_amended ["a", "b", "*"]).2 "a" "b" ["*"] rfl
    rw [h]
    decide

/-- Claim C10: `_cheaper_patterns` mutates its input in place via
`del pattern[0]`: for any input `a :: b :: rest` whose second segment is
glob-free, the caller's list afterwards is exactly the suffix starting
at the first glob-containing segment (every joined segment is gone) —
in particular it is no longer the original list. -/
theorem cheaper_patterns_mutates_input (a b : String) (rest : List String)
    (hb : hasGlobSeg b = false) :
    (cheaper_patterns (a :: b :: rest)).2
      = rest.dropWhile (fun s => !hasGlobSeg s) ∧
    (cheaper_patterns (a :: b :: rest)).2 ≠ a :: b :: rest := by
  have h := cheaperLoop_eq a (b :: rest)
  have hd : (b :: rest).dropWhile (fun s => !hasGlobSeg s)
      = rest.dropWhile (fun s => !hasGlobSeg s) := by
    simp [List.dropWhile_cons, hb]
  constructor
  · simp [cheaper_patterns, h, hd]
  · simp only [cheaper_patterns, h, hd]
    intro heq
    have hlen := congrArg List.length heq
    have hle : (rest.dropWhile (fun s => !hasGlobSeg s)).length ≤ rest.length :=
      (List.dropWhile_sublist _).length_le
    simp only [List.length_cons] at hlen
    omega

/-- Witness for `cheaper_patterns_mutates_input` at `["a", "b", "*"]`:
the caller's list is left as `["*"]`. -/
theorem cheaper_patterns_mutates_input_witness :
    (cheaper_patterns ["a", "b", "*"]).2 = ["*"] ∧
    (cheaper_patterns ["a", "b", "*"]).2 ≠ ["a", "b", "*"] := by
  have h := cheaper_patterns_mutates_input "a" "b" ["*"] (by decide)
  exact ⟨h.1.trans (by decide), h.2⟩

/-- Claim C6 amended: `MultiReader.fetch` fails when every sub-fetch
fails or produces no result, AND ALSO whenever any sub-fetch raises
synchronously (even if others succeed — line 50 is unguarded); when no
sub-fetch raises synchronously and exactly one delivers a series, the
result is that series unchanged (`reduce` over a singleton never calls
`merge`). -/
theorem multi_fetch_amended (subs : List SubFetch) :
    ((∀ s ∈ subs, subFetchFails s = true) → multi_fetch subs = none) ∧
    (SubFetch.raisesSync ∈ subs → multi_fetch subs = none) ∧
    (∀ s0 : Series, SubFetch.raisesSync ∉ subs →
      subs.filterMap waitPhase = [s0] → multi_fetch subs = some s0) := by
  refine ⟨?_, ?_, ?_⟩
  · intro h
    unfold multi_fetch
    by_cases hr : subs.any
        (fun s => match s with | SubFetch.raisesSync => true | _ => false) = true
    · rw [if_pos hr]
    · rw [if_neg hr]
      have hnil : subs.filterMap waitPhase = [] := by
        apply List.filterMap_eq_nil_iff.mpr
        intro s hs
        have hf := h s hs
        cases s with
        | val t => exact absurd hf (by simp [subFetchFails])
        | noneRes => rfl
        | raisesSync => rfl
        | pending r =>
          cases r with
          | none => rfl
          | some t => exact absurd hf (by simp [subFetchFails])
      rw [hnil]
  · intro h
    unfold multi_fetch
    have hr : subs.any
        (fun s => match s with | SubFetch.raisesSync => true | _ => false) = true :=
      List.any_eq_true.mpr ⟨SubFetch.raisesSync, h, rfl⟩
    rw [if_pos hr]
  · intro s0 hnr hfm
    unfold multi_fetch
    have hr : subs.any
        (fun s => match s with | SubFetch.raisesSync => true | _ => false) = false := by
      cases hany : subs.any
          (fun s => match s with | SubFetch.raisesSync => true | _ => false) with
      | false => rfl
      | true =>
        exfalso
        obtain ⟨x, hx, hpx⟩ := List.any_eq_true.mp hany
        cases x with
        | raisesSync => exact hnr hx
        | val t => exact Bool.false_ne_true hpx
        | noneRes => exact Bool.false_ne_true hpx
        | pending r => exact Bool.false_ne_true hpx
    rw [if_neg (by simp [hr]), hfm]
    rfl

/-- Witness for `multi_fetch_amended`: an all-failing list fails, a
synchronous raiser fails, and a single successful sub-fetch is returned
unchanged. -/
theorem multi_fetch_amended_witness :
    multi_fetch [SubFetch.noneRes] = none ∧
    multi_fetch [SubFetch.raisesSync] = none ∧
    multi_fetch [SubFetch.val ((0, 60, 60), [some 1])] = some ((0, 60, 60), [some 1]) := by
  refine ⟨(multi_fetch_amended [SubFetch.noneRes]).1 ?_,
          (multi_fetch_amended [SubFetch.raisesSync]).2.1 ?_,
          (multi_fetch_amended [SubFetch.val ((0, 60, 60), [some 1])]).2.2
            ((0, 60, 60), [some 1]) ?_ ?_⟩
  · decide
  · decide
  · decide
  · decide

/-- Along the tier walk, every later tier's coverage end lies at or
below `now - offset` (offsets only grow when spans are
non-negative). -/
theorem tierWalk_end_le (now : Int) :
    ∀ (retens : List (Int × Int)) (offset : Int),
      (∀ r ∈ retens, 0 ≤ r.1 * r.2) →
      ∀ x ∈ tierWalk retens offset now, x.2.2 ≤ now - offset := by
  intro retens
  induction retens with
  | nil =>
    intro offset h x hx
    simp [tierWalk] at hx
  | cons r rest ih =>
    intro offset h x hx
    simp only [tierWalk, List.mem_cons] at hx
    rcases hx with hx | hx
    · subst hx
      simp
    · have hr : 0 ≤ r.1 * r.2 := h r (by simp)
      have hle := ih (offset + r.1 * r.2) (fun q hq => h q (by simp [hq])) x hx
      omega

/-- The tier walk of `_table_config` in closed form: with non-negative
spans, a tier is kept iff `startTime ≤ cur_end` and `cur_start ≤
endTime` (the `break` cuts off only tiers that would fail the first
test anyway), the start clamps to `startTime`, and the end is the raw
`cur_end`. -/
theorem tcLoop_proj (metric method rstr : String) (s e n : Int) :
    ∀ (retens : List (Int × Int)) (offset fs : Int),
      (∀ r ∈ retens, 0 ≤ r.1 * r.2) →
      tcProj (tcLoop metric method rstr s e n retens offset fs).1
        = (tierWalk retens offset n).filterMap (fun x =>
            if s ≤ x.2.2 ∧ x.2.1 ≤ e then
              some (x.1, if x.2.1 < s then s else x.2.1, x.2.2)
            else none) := by
  intro retens
  induction retens with
  | nil =>
    intro offset fs h
    rfl
  | cons r rest ih =>
    intro offset fs h
    have hrest : ∀ q ∈ rest, 0 ≤ q.1 * q.2 := fun q hq => h q (by simp [hq])
    have hr : 0 ≤ r.1 * r.2 := h r (by simp)
    simp only [tcLoop, tierWalk, List.filterMap_cons]
    by_cases h1 : n - offset < s
    · rw [if_pos h1, if_neg (by omega : ¬ (s ≤ n - offset ∧ n - (offset + r.1 * r.2) ≤ e))]
      have hnil : (tierWalk rest (offset + r.1 * r.2) n).filterMap (fun x =>
          if s ≤ x.2.2 ∧ x.2.1 ≤ e then
            some (x.1, if x.2.1 < s then s else x.2.1, x.2.2)
          else none) = [] := by
        apply List.filterMap_eq_nil_iff.mpr
        intro x hx
        have hle := tierWalk_end_le n rest (offset + r.1 * r.2) hrest x hx
        rw [if_neg (by omega)]
      rw [hnil]
      rfl
    · rw [if_neg h1]
      by_cases h2 : n - (offset + r.1 * r.2) > e
      · rw [if_pos h2, if_neg (by omega : ¬ (s ≤ n - offset ∧ n - (offset + r.1 * r.2) ≤ e))]
        exact ih (offset + r.1 * r.2) fs hrest
      · rw [if_neg h2, if_pos (by omega : s ≤ n - offset ∧ n - (offset + r.1 * r.2) ≤ e)]
        have ihh := ih (offset + r.1 * r.2) (if r.1 < fs then r.1 else fs) hrest
        simp only [tcProj, List.map_cons] at ihh ⊢
        rw [ihh]

/-- `final_step` is attached after the walk and `tcProj` ignores it. -/
theorem tcProj_map_step (l : List TableDesc) (fs : Int) :
    tcProj (l.map (fun d => { d with step := fs })) = tcProj l := by
  simp only [tcProj, List.map_map]
  rfl

/-- Claim C4 amended: with non-negative tier spans, a tier is planned
iff `startTime ≤ now - offset` and `now - offset - span ≤ endTime`
(touching boundaries count as overlap, unlike a half-open
intersection test), the per-tier start is clamped to
`max(cur_start, startTime)`, and the per-tier end is the raw coverage
end `now - offset`, NOT clamped to `endTime`. -/
theorem table_config_amended (retentions : List (Int × Int)) (metric method : String)
    (s e n : Int) (h : ∀ r ∈ retentions, 0 ≤ r.1 * r.2) :
    tcProj (table_config retentions metric method s e n)
      = table_config_actual retentions s e n := by
  unfold table_config table_config_actual
  rw [tcProj_map_step]
  exact tcLoop_proj metric method (retenStr retentions) s e n retentions 0
    ((retentions.getLastD (0, 0)).1) h

/-- Witness for `table_config_amended` on the counterexample tiers. -/
theorem table_config_amended_witness :
    tcProj (table_config [(60, 1440), (3600, 720)] "m" "avg" 913600 1000000 1000000)
      = table_config_actual [(60, 1440), (3600, 720)] 913600 1000000 1000000 :=
  table_config_amended [(60, 1440), (3600, 720)] "m" "avg" 913600 1000000 1000000
    (by decide)
